import Mathlib

/-!
# SkyVision retrieval query-planning engine: a shallow embedding

This file embeds the query-planning core of the SkyVision backend
(`backend/app/queries.py`, `backend/app/routers/search.py`,
`backend/app/models/request.py`) in Lean 4 and proves properties of it.

Modelling conventions:
* Python strings are Lean `String`s; `str.lower()` is modelled as the
  ASCII-charwise lowering that Python performs on ASCII text (the fixed
  keyword whitelist and region map are pure ASCII).
* SQL `LIKE` is modelled by an executable matcher `likeMatch` that supports
  the `%` and `_` wildcards, exactly as the generated patterns use them.
* The SQL text built by `search_airports_by_text` is modelled structurally:
  each appended `WHERE`/`AND` clause becomes one `Pred` in the plan's
  conjunctive predicate list, and `evalPred` gives the clause's row-level
  semantics (with `Option` for nullable columns: a SQL comparison against
  `NULL` is not satisfied).
* Python floats are modelled as exact rationals (`ℚ`) for the weight
  arithmetic, and as a tagged type `PyFloat` (finite / nan / inf / ninf)
  where finiteness itself is at stake.
-/

namespace SkyVision

/-! ## Python string primitives -/

/-- ASCII-only character lowering: `str.lower()` restricted to ASCII,
which is all the fixed token lists contain. -/
def lowerChar (c : Char) : Char :=
  if 'A' ≤ c ∧ c ≤ 'Z' then Char.ofNat (c.toNat + 32) else c

/-- `s.lower()` on a Python string, charwise ASCII lowering. -/
def lowerStr (s : String) : String :=
  String.mk (s.toList.map lowerChar)

/-- Python whitespace characters recognized by `str.strip()`. -/
def isPySpace (c : Char) : Bool :=
  c = ' ' || c = '\t' || c = '\n' || c = '\x0d' || c = '\x0b' || c = '\x0c'

/-- `s.strip()`: remove leading and trailing whitespace. -/
def pyStrip (s : String) : String :=
  String.mk (((s.toList.dropWhile isPySpace).reverse.dropWhile isPySpace).reverse)

/-- Executable prefix test on char lists. -/
def isPrefixB : List Char → List Char → Bool
  | [], _ => true
  | _ :: _, [] => false
  | a :: as, b :: bs => (a == b) && isPrefixB as bs

/-- Python `in` on strings: `sub in s` is contiguous-substring containment
(a prefix of some suffix). -/
def strContains (s sub : String) : Bool :=
  s.toList.tails.any (fun t => isPrefixB sub.toList t)

/-! ## SQL LIKE

The queries compare `LOWER(col) LIKE LOWER(?)`, binding either a raw token
(region countries) or `%token%` (keywords).  `likeMatch pat s` decides
whether string `s` (as a char list) matches pattern `pat`, where `%`
matches any sequence and `_` any single character. -/

def likeMatch : List Char → List Char → Bool
  | [], s => s.isEmpty
  | p :: ps, s =>
    if p = '%' then s.tails.any (fun t => likeMatch ps t)
    else
      match s with
      | [] => false
      | c :: s' => (if p = '_' then true else p == c) && likeMatch ps s'

/-- A pattern fragment with no LIKE wildcards, matched literally. -/
def noWildB (l : List Char) : Bool :=
  l.all (fun c => c ≠ '%' && c ≠ '_')

/-- `LOWER(col) LIKE LOWER(pat)` where the column is nullable:
a `NULL` column never satisfies the comparison. -/
def sqlLikeCI (col : Option String) (pat : String) : Bool :=
  match col with
  | none => false
  | some s => likeMatch (lowerStr pat).toList (lowerStr s).toList

/-- `LOWER(col) = LOWER(?)` on a nullable column. -/
def sqlEqCI (col : Option String) (v : String) : Bool :=
  match col with
  | none => false
  | some s => lowerStr s = lowerStr v

/-- The spec-side notion "`kw` occurs as a case-insensitive substring of
the attribute" (an absent attribute contains nothing). -/
def ciSubstr (col : Option String) (kw : String) : Bool :=
  match col with
  | none => false
  | some s => strContains (lowerStr s) (lowerStr kw)

/-! ## Fixed token tables (`queries.py`) -/

/-- `_KEYWORD_WHITELIST`: the fixed set of recognized descriptive tokens. -/
def KEYWORD_WHITELIST : List String :=
  ["indoor", "garden", "gardens", "greenery", "trees", "plants",
   "glass", "modern", "classic", "vault", "arched", "arches",
   "wood", "bamboo", "fabric", "curved", "color", "bright",
   "lotus", "heritage", "spacious", "art", "biophilic", "beautiful",
   "facade", "facades"]

/-- `_REGION_KEYWORDS`: ordered region → country-token map (Python dicts
preserve declaration order, and detection is first-match-wins). -/
def REGION_KEYWORDS : List (String × List String) :=
  [("asia", ["india", "china", "japan", "singapore", "uae", "indonesia",
             "korea", "thailand", "qatar"]),
   ("europe", ["france", "uk", "germany", "italy", "switzerland", "spain",
               "netherlands", "turkey"]),
   ("africa", ["south africa", "egypt", "ethiopia", "morocco"]),
   ("america", ["usa", "canada", "mexico", "brazil"]),
   ("oceania", ["australia", "new zealand"])]

/-! ## Keyword extraction (`_extract_keywords`) -/

/-- `[a-zA-Z]` test used by the tokenizing regex. -/
def isAsciiAlpha (c : Char) : Bool :=
  ('a' ≤ c && c ≤ 'z') || ('A' ≤ c && c ≤ 'Z')

/-- Tokenizer worker: `run` holds the letters of the current run, in
reverse; a run is flushed when a non-letter (or the end) is reached. -/
def letterRunsAux : List Char → List Char → List String
  | [], run => if run.isEmpty then [] else [String.mk run.reverse]
  | c :: cs, run =>
    if isAsciiAlpha c then
      letterRunsAux cs (c :: run)
    else
      (if run.isEmpty then [] else [String.mk run.reverse]) ++ letterRunsAux cs []

/-- `re.findall(r"[a-zA-Z]+", ·)`: the maximal runs of ASCII letters,
in order of appearance. -/
def letterRuns (l : List Char) : List String :=
  letterRunsAux l []

/-- String-level wrapper for `letterRuns`. -/
def tokensOf (s : String) : List String := letterRuns s.toList

/-- `_extract_keywords(q)`: tokenize `(q or "").lower()` into ASCII-letter
runs, keep whitelist members, deduplicate and sort (Python
`sorted({...})`). The `Option` argument models a possibly-`None` text. -/
def extractKeywords (q : Option String) : List String :=
  let toks := tokensOf (lowerStr (q.getD ""))
  List.insertionSort (· ≤ ·) (toks.filter (· ∈ KEYWORD_WHITELIST)).dedup

/-! ## Region detection (`_detect_region`) -/

/-- Does one region-map entry match the (lowercased) query text?
A region matches if its name, or any of its country tokens, occurs as a
substring of the text. -/
def regionEntryMatches (qLower : String) (e : String × List String) : Bool :=
  strContains qLower e.1 || e.2.any (fun c => strContains qLower c)

/-- `_detect_region(q)`: lowercase and return the country list of the first
matching region in declaration order, or `none`. -/
def detectRegion (q : Option String) : Option (List String) :=
  let qLower := lowerStr (q.getD "")
  (REGION_KEYWORDS.find? (regionEntryMatches qLower)).map Prod.snd

/-! ## Python values and the filter map (`_apply_filters`) -/

/-- Python values that can appear in the untyped `filters` dict. -/
inductive PyVal
  | none
  | bool (b : Bool)
  | str (s : String)
  | int (n : Int)
  deriving DecidableEq, Repr

/-- Python truthiness, as used by `filters.get(key)` guards. -/
def PyVal.truthy : PyVal → Bool
  | .none => false
  | .bool b => b
  | .str s => !s.isEmpty
  | .int n => n != 0

/-- Rendering of a filter value when bound as a SQL comparison parameter
(in practice only strings occur; numeric/bool renderings follow MariaDB). -/
def PyVal.render : PyVal → String
  | .none => ""
  | .bool b => if b then "1" else "0"
  | .str s => s
  | .int n => toString n

/-- A Python dict modelled as an association list (keys unique in practice;
lookup takes the first binding, like a dict). -/
def Filters := List (String × PyVal)

/-- `filters.get(key)`: `PyVal.none` when the key is absent. -/
def fget (f : Filters) (key : String) : PyVal :=
  ((List.find? (fun p => p.1 = key) f).map Prod.snd).getD .none

/-! ## Python floats and vector serialization (`_vec_text`) -/

/-- A Python float: either an exact finite value (modelled in `ℚ`) or one
of the non-finite values. -/
inductive PyFloat
  | finite (q : ℚ)
  | nan
  | inf
  | ninf
  deriving DecidableEq, Repr

/-- `math.isfinite`. -/
def PyFloat.isfinite : PyFloat → Bool
  | .finite _ => true
  | _ => false

/-- One component of the list comprehension in `_vec_text`:
`float(x) if math.isfinite(float(x)) else 0.0`. -/
def cleanComponent (x : PyFloat) : PyFloat :=
  if x.isfinite then x else .finite 0

/-- The cleaned vector built by `_vec_text`. -/
def cleanVec (v : List PyFloat) : List PyFloat :=
  v.map cleanComponent

/-- Abstraction of Python `str()` on a float; the development depends only
on it being a function of the value. -/
def floatStr : PyFloat → String
  | .finite q => toString q.num ++ "/" ++ toString q.den
  | .nan => "nan"
  | .inf => "inf"
  | .ninf => "-inf"

/-- `_vec_text(vec_list)`: serialize the cleaned vector as
`"[" + ",".join(map(str, cleaned)) + "]"`. -/
def vecText (v : List PyFloat) : String :=
  "[" ++ String.intercalate "," ((cleanVec v).map floatStr) ++ "]"

/-- IEEE-style scaling of a float by a finite scalar (rounding ignored). -/
def pyScale (c : ℚ) : PyFloat → PyFloat
  | .finite q => .finite (c * q)
  | .nan => .nan
  | .inf => if c > 0 then .inf else if c < 0 then .ninf else .nan
  | .ninf => if c > 0 then .ninf else if c < 0 then .inf else .nan

/-- IEEE-style addition of floats (rounding ignored). -/
def pyAdd : PyFloat → PyFloat → PyFloat
  | .finite a, .finite b => .finite (a + b)
  | .nan, _ => .nan
  | _, .nan => .nan
  | .inf, .ninf => .nan
  | .ninf, .inf => .nan
  | .inf, _ => .inf
  | _, .inf => .inf
  | .ninf, _ => .ninf
  | _, .ninf => .ninf

/-! ## The query plan -/

/-- Retrieval mode of a plan. -/
inductive Mode
  | RegionOnly
  | VectorSimilarity
  deriving DecidableEq, Repr

/-- One appended SQL clause of `search_airports_by_text`, structurally.
`countryEq v` is `LOWER(country) = LOWER(?)` with `? := v`, etc.;
`keywordHit kws` is the disjunction built by `_keyword_hit_sql_and_params`;
`regionLike cs` is the `LOWER(country) LIKE LOWER(?)` disjunction over the
detected region's country tokens (bound verbatim, with no wildcards). -/
inductive Pred
  | countryEq (v : PyVal)
  | cityEq (v : PyVal)
  | styleEq (v : PyVal)
  | hasImage
  | hasLogo
  | keywordHit (kws : List String)
  | regionLike (countries : List String)
  deriving DecidableEq, Repr

/-- The retrieval plan produced per request: mode, the serialized query
vector bound to the distance expression (absent in RegionOnly mode), the
conjunctive list of predicate groups, the secondary ordering key
(name in RegionOnly mode, distance otherwise), and the result limit. -/
structure Plan where
  mode : Mode
  vecParam : Option String
  preds : List Pred
  orderByName : Bool
  limit : Nat
  deriving DecidableEq, Repr

/-- `_apply_filters`: the clause list contributed by the filter dict.
`if not filters` (a `None` or empty dict) contributes nothing; otherwise
each of the five recognized keys contributes one clause when its value is
truthy, and every other key is never consulted. -/
def applyFiltersPreds (filters : Option Filters) : List Pred :=
  match filters with
  | Option.none => []
  | some f =>
    if f.isEmpty then []
    else
      (if (fget f "country").truthy then [Pred.countryEq (fget f "country")] else []) ++
      (if (fget f "city").truthy then [Pred.cityEq (fget f "city")] else []) ++
      (if (fget f "style").truthy then [Pred.styleEq (fget f "style")] else []) ++
      (if (fget f "has_image").truthy then [Pred.hasImage] else []) ++
      (if (fget f "has_logo").truthy then [Pred.hasLogo] else [])

/-- Python truthiness of an `Optional[List[str]]`
(`bool(region_countries)`): `None` and the empty list are falsy. -/
def optListTruthy (o : Option (List String)) : Bool :=
  match o with
  | Option.none => false
  | some l => !l.isEmpty

/-- The query-text preprocessing of `search_airports_by_text`:
`(query_text or "").strip().lower()`. -/
def procText (query_text : Option String) : String :=
  lowerStr (pyStrip (query_text.getD ""))

/-- `search_airports_by_text` up to the storage call: the plan it builds.
`k` is accepted but unused ("not a hard cap anymore" in the source);
the limit is the literal `LIMIT 1000` of both branches. -/
def searchAirportsPlan (vec : List PyFloat) (k : Int) (filters : Option Filters)
    (query_text : Option String) : Plan :=
  let _ := k
  let q_text := procText query_text
  let keywords := extractKeywords (some q_text)
  let region_countries := detectRegion (some q_text)
  let is_region_search := optListTruthy region_countries && keywords.isEmpty
  { mode := if is_region_search then Mode.RegionOnly else Mode.VectorSimilarity
    vecParam := if is_region_search then Option.none else some (vecText vec)
    preds :=
      applyFiltersPreds filters ++
      (if keywords.isEmpty then [] else [Pred.keywordHit keywords]) ++
      (if optListTruthy region_countries
       then [Pred.regionLike (region_countries.getD [])] else [])
    orderByName := is_region_search
    limit := 1000 }

/-! ## Row-level semantics of a plan -/

/-- A candidate row of the `airports`/`airlines` tables as the generated
SQL reads it.  `style` is `JSON_VALUE(metadata, '$.style')` and `tags` is
the text rendering of `JSON_EXTRACT(metadata, '$.tags')`; nullable columns
are `Option`s. -/
structure Row where
  id : Int
  name : String
  city : Option String
  country : Option String
  image_url : Option String
  logo_url : Option String
  style : Option String
  tags : Option String
  distance : ℚ
  deriving DecidableEq, Repr

/-- `image_url IS NULL OR image_url = ''` (also used with `logo_url`). -/
def urlMissing (u : Option String) : Bool :=
  match u with
  | Option.none => true
  | some s => s = ""

/-- Row-level truth of one clause. -/
def evalPred (r : Row) : Pred → Bool
  | .countryEq v => sqlEqCI r.country v.render
  | .cityEq v => sqlEqCI r.city v.render
  | .styleEq v => sqlEqCI r.style v.render
  | .hasImage => !urlMissing r.image_url
  | .hasLogo => !urlMissing r.logo_url
  | .keywordHit kws =>
    kws.any (fun kw =>
      sqlLikeCI r.style ("%" ++ kw ++ "%") || sqlLikeCI r.tags ("%" ++ kw ++ "%"))
  | .regionLike cs => cs.any (fun c => sqlLikeCI r.country c)

/-- A row satisfies a plan's `WHERE` clause iff it satisfies every
conjunct. -/
def rowQualifies (p : Plan) (r : Row) : Bool :=
  p.preds.all (evalPred r)

/-- The `ORDER BY` comparison: image-presence first
(`(image_url IS NULL OR image_url='') ASC`), then name or distance
ascending according to the mode. -/
def rowLE (byName : Bool) (a b : Row) : Bool :=
  if urlMissing a.image_url = urlMissing b.image_url then
    (if byName then a.name ≤ b.name else a.distance ≤ b.distance)
  else !urlMissing a.image_url

/-- Execution of a plan by the storage collaborator over a table snapshot:
filter by the conjunctive predicates, order, truncate to the limit. -/
def execPlan (p : Plan) (table : List Row) : List Row :=
  (List.insertionSort (fun a b => rowLE p.orderByName a b = true)
    (table.filter (rowQualifies p))).take p.limit

/-! ## Request validation and the hybrid endpoint (`search.py`,
`models/request.py`) -/

/-- The `k` bounds declared on `TextQuery.k` (`ge=1, le=10000`). -/
def kValid (k : Int) : Prop := 1 ≤ k ∧ k ≤ 10000

/-- An HTTP error as raised by the router (status 400 for validation,
500 for storage failures). -/
structure HTTPError where
  status : Nat
  deriving DecidableEq, Repr

/-- `_validate_dim`: reject with a 400 unless the (1-D, ravelled) embedding
has exactly `EMBEDDING_DIM` components.  The configured dimension is the
parameter `D`. -/
def validateDim (D : Nat) (vec : List PyFloat) : Except HTTPError Unit :=
  if vec.length ≠ D then Except.error ⟨400⟩ else Except.ok ()

/-- `max(0.0, min(1.0, w))`. -/
def clamp01 (x : ℚ) : ℚ := max 0 (min 1 x)

/-- The `1e-9` floor of the weight denominator (exact here). -/
def WEIGHT_EPS : ℚ := 1 / 1000000000

/-- The weight normalization of `search_hybrid`: clamp both weights to
[0,1], then divide by `max(wt + wi, 1e-9)`. -/
def normalizeWeights (wt0 wi0 : ℚ) : ℚ × ℚ :=
  let wt := clamp01 wt0
  let wi := clamp01 wi0
  let denom := max (wt + wi) WEIGHT_EPS
  (wt / denom, wi / denom)

/-- `wt * t_vec + wi * i_vec`, elementwise. -/
def combineVec (wt : ℚ) (t_vec : List PyFloat) (wi : ℚ) (i_vec : List PyFloat) :
    List PyFloat :=
  List.zipWith (fun a b => pyAdd (pyScale wt a) (pyScale wi b)) t_vec i_vec

/-- `search_hybrid` up to (and excluding) the storage call, given the
embeddings the external provider returned: validate the text embedding,
validate the optional image embedding, normalize the weights, check shape
agreement, and build the plan.  An `Except.error` is a rejected request
raised before any storage call. -/
def searchHybridPlan (D : Nat) (t_vec : List PyFloat) (i_vec : Option (List PyFloat))
    (wt0 wi0 : ℚ) (k : Int) (filters : Option Filters) (query : String) :
    Except HTTPError Plan :=
  match validateDim D t_vec with
  | Except.error e => Except.error e
  | Except.ok () =>
    match i_vec with
    | some iv =>
      match validateDim D iv with
      | Except.error e => Except.error e
      | Except.ok () =>
        let w := normalizeWeights wt0 wi0
        if iv.length ≠ t_vec.length then Except.error ⟨400⟩
        else Except.ok (searchAirportsPlan (combineVec w.1 t_vec w.2 iv) k filters (some query))
    | Option.none =>
      let _ := normalizeWeights wt0 wi0
      Except.ok (searchAirportsPlan t_vec k filters (some query))

/-! ## Lemmas: substring containment and LIKE patterns -/

theorem isPrefixB_iff (a b : List Char) : isPrefixB a b = true ↔ a <+: b := by
  induction a generalizing b with
  | nil => simp [isPrefixB]
  | cons x xs ih =>
    cases b with
    | nil => simp [isPrefixB]
    | cons y ys => simp [isPrefixB, ih, List.cons_prefix_cons]

theorem strContains_iff (s sub : String) :
    strContains s sub = true ↔ sub.toList <:+: s.toList := by
  rw [ List.infix_iff_prefix_suffix]
  simp only [strContains, List.any_eq_true, List.mem_tails, isPrefixB_iff]
  constructor
  · rintro ⟨t, h1, h2⟩
    exact ⟨t, h2, h1⟩
  · rintro ⟨t, h1, h2⟩
    exact ⟨t, h2, h1⟩

theorem likeMatch_percent (ps s : List Char) :
    likeMatch ('%' :: ps) s = true ↔ ∃ t, t <:+ s ∧ likeMatch ps t = true := by
  simp [likeMatch, List.any_eq_true, List.mem_tails]

theorem likeMatch_cons_nil (p : Char) (ps : List Char) (hp : p ≠ '%') :
    likeMatch (p :: ps) [] = false := by
  simp [likeMatch, hp]

theorem likeMatch_cons_cons (p : Char) (ps : List Char) (c : Char) (s' : List Char)
    (hp : p ≠ '%') :
    likeMatch (p :: ps) (c :: s') =
      ((if p = '_' then true else p == c) && likeMatch ps s') := by
  simp [likeMatch, hp]

theorem likeMatch_literal (ps : List Char) (h : noWildB ps = true) :
    ∀ s, (likeMatch ps s = true ↔ s = ps) := by
  induction ps with
  | nil =>
    intro s
    cases s <;> simp [likeMatch]
  | cons p ps ih =>
    simp only [noWildB, List.all_cons, Bool.and_eq_true, decide_eq_true_eq] at h
    obtain ⟨⟨hp1, hp2⟩, hps⟩ := h
    intro s
    cases s with
    | nil => simp [likeMatch_cons_nil p ps hp1]
    | cons c s' =>
      have ih' := ih (by simpa [noWildB] using hps) s'
      rw [likeMatch_cons_cons p ps c s' hp1, if_neg hp2]
      simp only [Bool.and_eq_true, beq_iff_eq, ih', List.cons.injEq]
      constructor
      · rintro ⟨h1, h2⟩
        exact ⟨h1.symm, h2⟩
      · rintro ⟨h1, h2⟩
        exact ⟨h1.symm, h2⟩

theorem likeMatch_literal_percent (kw : List Char) (h : noWildB kw = true) :
    ∀ s, (likeMatch (kw ++ ['%']) s = true ↔ kw <+: s) := by
  induction kw with
  | nil =>
    intro s
    simp only [List.nil_append]
    constructor
    · intro _
      exact List.nil_prefix
    · intro _
      rw [likeMatch_percent]
      exact ⟨[], List.nil_suffix, by simp [likeMatch]⟩
  | cons p kw ih =>
    simp only [noWildB, List.all_cons, Bool.and_eq_true, decide_eq_true_eq] at h
    obtain ⟨⟨hp1, hp2⟩, hkw⟩ := h
    intro s
    cases s with
    | nil =>
      rw [List.cons_append, likeMatch_cons_nil p (kw ++ ['%']) hp1]
      simp
    | cons c s' =>
      have ih' := ih (by simpa [noWildB] using hkw) s'
      rw [List.cons_append, likeMatch_cons_cons p (kw ++ ['%']) c s' hp1, if_neg hp2]
      simp [ih', List.cons_prefix_cons]

theorem likeMatch_substr (kw : List Char) (h : noWildB kw = true) (s : List Char) :
    likeMatch ('%' :: (kw ++ ['%'])) s = true ↔ kw <:+: s := by
  rw [likeMatch_percent, List.infix_iff_prefix_suffix]
  constructor
  · rintro ⟨t, h1, h2⟩
    exact ⟨t, (likeMatch_literal_percent kw h t).mp h2, h1⟩
  · rintro ⟨t, h1, h2⟩
    exact ⟨t, h2, (likeMatch_literal_percent kw h t).mpr h1⟩

/-! ## Lemmas: lowercasing, fixed token tables, SQL clause semantics -/

theorem lowerStr_toList (s : String) : (lowerStr s).toList = s.toList.map lowerChar :=
  rfl

/-- Every whitelist keyword is already lowercase and contains no LIKE
wildcard characters. -/
theorem keyword_whitelist_ok :
    ∀ kw ∈ KEYWORD_WHITELIST,
      kw.toList.map lowerChar = kw.toList ∧ noWildB kw.toList = true := by
  decide

/-- Every region entry has a non-empty country list, all of whose tokens
are already lowercase and contain no LIKE wildcard characters. -/
theorem region_entries_ok :
    ∀ e ∈ REGION_KEYWORDS, e.2 ≠ [] ∧
      ∀ c ∈ e.2, c.toList.map lowerChar = c.toList ∧ noWildB c.toList = true := by
  decide

/-- The `LOWER(col) LIKE LOWER('%kw%')` clause generated by
`_keyword_hit_sql_and_params` is exactly case-insensitive substring
containment, for a wildcard-free lowercase keyword. -/
theorem sqlLikeCI_keyword (kw : String)
    (hl : kw.toList.map lowerChar = kw.toList) (hw : noWildB kw.toList = true)
    (col : Option String) :
    sqlLikeCI col ("%" ++ kw ++ "%") = ciSubstr col kw := by
  cases col with
  | none => rfl
  | some s =>
    have hpat : (lowerStr ("%" ++ kw ++ "%")).toList = '%' :: (kw.toList ++ ['%']) := by
      show (("%" ++ kw ++ "%").data.map lowerChar) = _
      rw [String.data_append, String.data_append]
      simp only [List.map_append]
      rw [show ("%" : String).data.map lowerChar = ['%'] from rfl]
      rw [show kw.data.map lowerChar = kw.data from hl]
      rfl
    have hsub : (lowerStr kw).toList = kw.toList := by
      rw [lowerStr_toList, hl]
    simp only [sqlLikeCI, ciSubstr, hpat]
    rw [Bool.eq_iff_iff, likeMatch_substr kw.toList hw, strContains_iff, hsub]

/-- The `LOWER(country) LIKE LOWER(?)` clause built for region filtering
binds its token with no wildcards, so it is case-insensitive equality. -/
theorem sqlLikeCI_exact (v : String)
    (hl : v.toList.map lowerChar = v.toList) (hw : noWildB v.toList = true)
    (col : Option String) :
    sqlLikeCI col v = sqlEqCI col v := by
  cases col with
  | none => rfl
  | some s =>
    have hv : (lowerStr v).toList = v.toList := by
      rw [lowerStr_toList, hl]
    simp only [sqlLikeCI, sqlEqCI, hv]
    rw [Bool.eq_iff_iff, likeMatch_literal v.toList hw, decide_eq_true_eq,
      ← String.toList_inj, hv]

/-! ## Lemmas: first-match search, keyword extraction, region detection -/

theorem find?_first {α : Type} (p : α → Bool) (pre : List α) (e : α) (post : List α)
    (hpre : ∀ x ∈ pre, p x = false) (he : p e = true) :
    List.find? p (pre ++ e :: post) = some e := by
  rw [ List.find?_append]
  have h1 : List.find? p pre = Option.none := by
    rw [ List.find?_eq_none]
    intro x hx
    simp [hpre x hx]
  rw [h1, List.find?_cons_of_pos post he]
  rfl

theorem mem_extractKeywords (q : Option String) (t : String) :
    t ∈ extractKeywords q ↔
      t ∈ tokensOf (lowerStr (q.getD "")) ∧ t ∈ KEYWORD_WHITELIST := by
  simp only [extractKeywords]
  rw [(List.perm_insertionSort _ _).mem_iff, List.mem_dedup, List.mem_filter]
  simp

theorem extractKeywords_sorted (q : Option String) :
    List.Sorted (· ≤ ·) (extractKeywords q) :=
  List.sorted_insertionSort _ _

theorem extractKeywords_nodup (q : Option String) :
    (extractKeywords q).Nodup :=
  ((List.perm_insertionSort _ _).nodup_iff).mpr (List.nodup_dedup _)

theorem detectRegion_ne_nil (q : Option String) (cs : List String)
    (h : detectRegion q = some cs) : cs ≠ [] := by
  simp only [detectRegion, Option.map_eq_some'] at h
  obtain ⟨e, he, hcs⟩ := h
  have hmem : e ∈ REGION_KEYWORDS := List.mem_of_find?_eq_some he
  have := (region_entries_ok e hmem).1
  rw [← hcs]
  exact this

theorem optListTruthy_detectRegion (q : Option String) :
    optListTruthy (detectRegion q) = (detectRegion q).isSome := by
  cases h : detectRegion q with
  | none => rfl
  | some cs =>
    have := detectRegion_ne_nil q cs h
    simp [optListTruthy, this]

theorem applyFiltersPreds_some (f : Filters) :
    applyFiltersPreds (some f) =
      (if (fget f "country").truthy then [Pred.countryEq (fget f "country")] else []) ++
      (if (fget f "city").truthy then [Pred.cityEq (fget f "city")] else []) ++
      (if (fget f "style").truthy then [Pred.styleEq (fget f "style")] else []) ++
      (if (fget f "has_image").truthy then [Pred.hasImage] else []) ++
      (if (fget f "has_logo").truthy then [Pred.hasLogo] else []) := by
  cases f with
  | nil => rfl
  | cons a f' => rfl

theorem applyFiltersPreds_no_keywordHit (filters : Option Filters) (kws : List String) :
    Pred.keywordHit kws ∉ applyFiltersPreds filters := by
  cases filters with
  | none => simp [applyFiltersPreds]
  | some f =>
    rw [applyFiltersPreds_some]
    split_ifs <;> simp

theorem mem_execPlan_qualifies (p : Plan) (table : List Row) (r : Row)
    (hr : r ∈ execPlan p table) : ∀ pred ∈ p.preds, evalPred r pred = true := by
  have h1 := List.mem_of_mem_take hr
  have h2 := (List.perm_insertionSort _ _).mem_iff.mp h1
  have h3 := (List.mem_filter.mp h2).2
  simp only [rowQualifies] at h3
  intro pred hpred
  exact List.all_eq_true.mp h3 pred hpred

/-! ## The claims -/

/-- C1: for every query text, the planner selects `RegionOnly` mode iff a
region was detected in the (preprocessed) text and the extracted keyword
set is empty; every other combination yields `VectorSimilarity`. -/
theorem C1_mode_selection (vec : List PyFloat) (k : Int) (filters : Option Filters)
    (query_text : Option String) :
    ((searchAirportsPlan vec k filters query_text).mode = Mode.RegionOnly ↔
      ((detectRegion (some (procText query_text))).isSome = true ∧
        extractKeywords (some (procText query_text)) = [])) ∧
    ((searchAirportsPlan vec k filters query_text).mode = Mode.VectorSimilarity ↔
      ¬((detectRegion (some (procText query_text))).isSome = true ∧
        extractKeywords (some (procText query_text)) = [])) := by
  simp only [searchAirportsPlan]
  rw [optListTruthy_detectRegion]
  by_cases h1 : (detectRegion (some (procText query_text))).isSome = true <;>
    by_cases h2 : extractKeywords (some (procText query_text)) = [] <;>
      simp [h1, h2, List.isEmpty_iff]

/-- C1 witness: "airports in asia" detects a region and extracts no
keywords, so the planner selects `RegionOnly` mode. -/
theorem C1_mode_selection_witness :
    (detectRegion (some (procText (some "airports in asia")))).isSome = true ∧
    extractKeywords (some (procText (some "airports in asia"))) = [] ∧
    (searchAirportsPlan [] 3 Option.none (some "airports in asia")).mode =
      Mode.RegionOnly := by
  refine ⟨by decide, by decide, ?_⟩
  exact (C1_mode_selection [] 3 Option.none (some "airports in asia")).1.mpr
    ⟨by decide, by decide⟩

/-- C2: the plan's result limit is the fixed constant 1000, and the
executed result list never holds more than 1000 rows, for every accepted
`k` (the request schema accepts `1 ≤ k ≤ 10000`). -/
theorem C2_fixed_limit (vec : List PyFloat) (k : Int) (filters : Option Filters)
    (query_text : Option String) (h : kValid k) :
    (searchAirportsPlan vec k filters query_text).limit = 1000 ∧
    ∀ table : List Row,
      (execPlan (searchAirportsPlan vec k filters query_text) table).length ≤ 1000 := by
  refine ⟨rfl, fun table => ?_⟩
  exact List.length_take_le _ _

/-- C2 witness: a request with `k = 9999` is accepted and still yields
`limit = 1000`. -/
theorem C2_fixed_limit_witness :
    kValid 9999 ∧
    ((searchAirportsPlan [] 9999 Option.none Option.none).limit = 1000 ∧
      ∀ table : List Row,
        (execPlan (searchAirportsPlan [] 9999 Option.none Option.none) table).length ≤ 1000) :=
  ⟨by constructor <;> norm_num,
    C2_fixed_limit [] 9999 Option.none Option.none (by constructor <;> norm_num)⟩

/-- C5: keyword extraction returns exactly the whitelist members among the
maximal ASCII-letter runs of the lowercased text, deduplicated and sorted;
it is a subset of the whitelist, empty text gives the empty list, and the
function is deterministic. -/
theorem C5_extract_keywords (q : Option String) :
    (∀ t, t ∈ extractKeywords q ↔
        t ∈ tokensOf (lowerStr (q.getD "")) ∧ t ∈ KEYWORD_WHITELIST) ∧
    (∀ t ∈ extractKeywords q, t ∈ KEYWORD_WHITELIST) ∧
    List.Sorted (· ≤ ·) (extractKeywords q) ∧
    (extractKeywords q).Nodup ∧
    extractKeywords Option.none = [] ∧
    extractKeywords (some "") = [] ∧
    extractKeywords q = extractKeywords q := by
  refine ⟨mem_extractKeywords q, ?_, extractKeywords_sorted q, extractKeywords_nodup q,
    by decide, by decide, rfl⟩
  intro t ht
  exact ((mem_extractKeywords q t).mp ht).2

/-- C5 witness: "bamboo airport" contains the token run "bamboo", which is
whitelisted, so it is extracted; "airport" is not whitelisted. -/
theorem C5_extract_keywords_witness :
    "bamboo" ∈ tokensOf (lowerStr "bamboo airport") ∧
    "bamboo" ∈ KEYWORD_WHITELIST ∧
    "bamboo" ∈ extractKeywords (some "bamboo airport") ∧
    "airport" ∉ extractKeywords (some "bamboo airport") := by
  refine ⟨by decide, by decide, ?_, ?_⟩
  · exact ((C5_extract_keywords (some "bamboo airport")).1 "bamboo").mpr
      ⟨by decide, by decide⟩
  · intro hmem
    have h := ((C5_extract_keywords (some "bamboo airport")).1 "airport").mp hmem
    exact absurd h.2 (by decide)

/-- C6: region detection lowercases the text and scans the region map in
declaration order, returning the country list of the first entry whose
name or country token occurs as a substring; no match yields `none`. -/
theorem C6_detect_region (q : Option String) :
    (detectRegion q = Option.none ↔
      ∀ e ∈ REGION_KEYWORDS,
        regionEntryMatches (lowerStr (q.getD "")) e = false) ∧
    (∀ (pre : List (String × List String)) (e : String × List String)
        (post : List (String × List String)),
      REGION_KEYWORDS = pre ++ e :: post →
      regionEntryMatches (lowerStr (q.getD "")) e = true →
      (∀ x ∈ pre, regionEntryMatches (lowerStr (q.getD "")) x = false) →
      detectRegion q = some e.2) := by
  constructor
  · simp only [detectRegion, Option.map_eq_none']
    rw [ List.find?_eq_none]
    constructor
    · intro h e he
      simpa using h e he
    · intro h e he
      simp [h e he]
  · intro pre e post hsplit he hpre
    simp only [detectRegion]
    rw [hsplit, find?_first _ pre e post hpre he]
    rfl

/-- C6 witness: in "airports in india and france" both the asia entry (via
"india") and the europe entry (via "france") match, and detection returns
the country list of asia, the earlier-declared entry. -/
theorem C6_detect_region_witness :
    regionEntryMatches (lowerStr "airports in india and france")
      ("asia", ["india", "china", "japan", "singapore", "uae", "indonesia",
                "korea", "thailand", "qatar"]) = true ∧
    regionEntryMatches (lowerStr "airports in india and france")
      ("europe", ["france", "uk", "germany", "italy", "switzerland", "spain",
                  "netherlands", "turkey"]) = true ∧
    detectRegion (some "airports in india and france") =
      some ["india", "china", "japan", "singapore", "uae", "indonesia",
            "korea", "thailand", "qatar"] := by
  refine ⟨by decide, by decide, ?_⟩
  exact (C6_detect_region (some "airports in india and france")).2 []
    ("asia", ["india", "china", "japan", "singapore", "uae", "indonesia",
              "korea", "thailand", "qatar"])
    [("europe", ["france", "uk", "germany", "italy", "switzerland", "spain",
                 "netherlands", "turkey"]),
     ("africa", ["south africa", "egypt", "ethiopia", "morocco"]),
     ("america", ["usa", "canada", "mexico", "brazil"]),
     ("oceania", ["australia", "new zealand"])]
    rfl (by decide) (by simp)

/-- C7: when the extracted keyword set is non-empty the plan carries a
strict keyword predicate group (ANDed, like every group, with all others by
the conjunctive `WHERE`); a row satisfies it iff some extracted keyword is
a case-insensitive substring of the style or tags metadata attribute; rows
failing any group are excluded from the executed result; and no keyword
group is emitted when the keyword set is empty. -/
theorem C7_keyword_filter (vec : List PyFloat) (k : Int) (filters : Option Filters)
    (query_text : Option String) :
    (extractKeywords (some (procText query_text)) ≠ [] →
      Pred.keywordHit (extractKeywords (some (procText query_text))) ∈
        (searchAirportsPlan vec k filters query_text).preds) ∧
    (extractKeywords (some (procText query_text)) = [] →
      ∀ kws, Pred.keywordHit kws ∉ (searchAirportsPlan vec k filters query_text).preds) ∧
    (∀ r : Row,
      evalPred r (Pred.keywordHit (extractKeywords (some (procText query_text)))) = true ↔
        ∃ kw ∈ extractKeywords (some (procText query_text)),
          (ciSubstr r.style kw = true ∨ ciSubstr r.tags kw = true)) ∧
    (∀ (table : List Row) (r : Row),
      r ∈ execPlan (searchAirportsPlan vec k filters query_text) table →
      ∀ pred ∈ (searchAirportsPlan vec k filters query_text).preds,
        evalPred r pred = true) := by
  refine ⟨?_, ?_, ?_, fun table r hr => mem_execPlan_qualifies _ table r hr⟩
  · intro h
    simp only [searchAirportsPlan, List.mem_append]
    left; right
    rw [if_neg (by simpa [ List.isEmpty_iff] using h)]
    exact List.mem_singleton_self _
  · intro h kws hmem
    simp only [searchAirportsPlan, List.mem_append] at hmem
    rcases hmem with ((h1 | h2) | h3)
    · exact applyFiltersPreds_no_keywordHit filters kws h1
    · rw [h] at h2
      simp at h2
    · revert h3
      split <;> simp
  · intro r
    simp only [evalPred, List.any_eq_true, Bool.or_eq_true]
    constructor
    · rintro ⟨kw, hkw, hcase⟩
      have hwl : kw ∈ KEYWORD_WHITELIST := ((mem_extractKeywords _ kw).mp hkw).2
      obtain ⟨hl, hw⟩ := keyword_whitelist_ok kw hwl
      rw [sqlLikeCI_keyword kw hl hw, sqlLikeCI_keyword kw hl hw] at hcase
      exact ⟨kw, hkw, hcase⟩
    · rintro ⟨kw, hkw, hcase⟩
      have hwl : kw ∈ KEYWORD_WHITELIST := ((mem_extractKeywords _ kw).mp hkw).2
      obtain ⟨hl, hw⟩ := keyword_whitelist_ok kw hwl
      rw [← sqlLikeCI_keyword kw hl hw, ← sqlLikeCI_keyword kw hl hw] at hcase
      exact ⟨kw, hkw, hcase⟩

/-- C7 witness: the query "bamboo airport" extracts the keyword "bamboo",
the plan carries the strict keyword group, and a row styled "Bamboo style"
satisfies it. -/
theorem C7_keyword_filter_witness :
    extractKeywords (some (procText (some "bamboo airport"))) = ["bamboo"] ∧
    Pred.keywordHit ["bamboo"] ∈
      (searchAirportsPlan [] 10 Option.none (some "bamboo airport")).preds ∧
    evalPred (⟨1, "A", Option.none, Option.none, Option.none, Option.none,
        some "Bamboo style", Option.none, 0⟩ : Row)
      (Pred.keywordHit ["bamboo"]) = true := by
  have hk : extractKeywords (some (procText (some "bamboo airport"))) = ["bamboo"] := by
    decide
  have h := C7_keyword_filter [] 10 Option.none (some "bamboo airport")
  refine ⟨hk, ?_, ?_⟩
  · have h1 := h.1 (by rw [hk]; simp)
    rwa [hk] at h1
  · have h3 := (h.2.2.1 (⟨1, "A", Option.none, Option.none, Option.none, Option.none,
        some "Bamboo style", Option.none, 0⟩ : Row)).mpr
    rw [hk] at h3
    exact h3 ⟨"bamboo", by simp, Or.inl (by decide)⟩

/-- C3 counterexample: for the query "airports in asia" the plan's only
group is the region predicate, the token "india" is a case-insensitive
substring of the stored country "Republic of India", yet the predicate
evaluates to false on that row (the generated `LIKE` binds the bare token
with no wildcards, so it is exact matching, not substring matching) and
the row is excluded. -/
theorem C3_counterexample :
    (searchAirportsPlan [PyFloat.finite 1] 1000 Option.none
        (some "airports in asia")).preds =
      [Pred.regionLike ["india", "china", "japan", "singapore", "uae", "indonesia",
        "korea", "thailand", "qatar"]] ∧
    strContains (lowerStr "Republic of India") (lowerStr "india") = true ∧
    evalPred (⟨1, "Delhi", Option.none, some "Republic of India", Option.none,
        Option.none, Option.none, Option.none, 0⟩ : Row)
      (Pred.regionLike ["india", "china", "japan", "singapore", "uae", "indonesia",
        "korea", "thailand", "qatar"]) = false ∧
    rowQualifies (searchAirportsPlan [PyFloat.finite 1] 1000 Option.none
        (some "airports in asia"))
      (⟨1, "Delhi", Option.none, some "Republic of India", Option.none,
        Option.none, Option.none, Option.none, 0⟩ : Row) = false := by
  exact ⟨by decide, by decide, by decide, by decide⟩

/-- C3 amended: whenever a region is detected, the plan contains the
region predicate group, ANDed with every other group; under it a row
qualifies iff its country equals, case-insensitively and exactly (not as a
substring), at least one country token of the detected region's list. -/
theorem C3_region_filter_amended (vec : List PyFloat) (k : Int)
    (filters : Option Filters) (query_text : Option String) (cs : List String)
    (h : detectRegion (some (procText query_text)) = some cs) :
    Pred.regionLike cs ∈ (searchAirportsPlan vec k filters query_text).preds ∧
    (∀ r : Row, (evalPred r (Pred.regionLike cs) = true ↔
        ∃ c ∈ cs, sqlEqCI r.country c = true)) ∧
    (∀ (table : List Row) (r : Row),
      r ∈ execPlan (searchAirportsPlan vec k filters query_text) table →
      ∀ pred ∈ (searchAirportsPlan vec k filters query_text).preds,
        evalPred r pred = true) := by
  have hne := detectRegion_ne_nil _ cs h
  have htr : optListTruthy (some cs) = true := by
    cases cs with
    | nil => exact absurd rfl hne
    | cons c cs' => rfl
  have hentry : ∃ e ∈ REGION_KEYWORDS, e.2 = cs := by
    have h' := h
    simp only [detectRegion, Option.map_eq_some'] at h'
    obtain ⟨e, he, hcs⟩ := h'
    exact ⟨e, List.mem_of_find?_eq_some he, hcs⟩
  refine ⟨?_, ?_, fun table r hr => mem_execPlan_qualifies _ table r hr⟩
  · simp only [searchAirportsPlan, h, List.mem_append, htr]
    right
    simp
  · intro r
    obtain ⟨e, he, hcs⟩ := hentry
    simp only [evalPred, List.any_eq_true]
    constructor
    · rintro ⟨c, hc, hlike⟩
      have hok := (region_entries_ok e he).2 c (by rw [hcs]; exact hc)
      rw [sqlLikeCI_exact c hok.1 hok.2] at hlike
      exact ⟨c, hc, hlike⟩
    · rintro ⟨c, hc, heq⟩
      have hok := (region_entries_ok e he).2 c (by rw [hcs]; exact hc)
      rw [← sqlLikeCI_exact c hok.1 hok.2] at heq
      exact ⟨c, hc, heq⟩

/-- C3 amended witness: for "airports in asia" the asia country list is
detected, the region group is in the plan, and a row whose country is
exactly "India" (case-insensitively) satisfies it. -/
theorem C3_region_filter_amended_witness :
    detectRegion (some (procText (some "airports in asia"))) =
      some ["india", "china", "japan", "singapore", "uae", "indonesia",
        "korea", "thailand", "qatar"] ∧
    Pred.regionLike ["india", "china", "japan", "singapore", "uae", "indonesia",
        "korea", "thailand", "qatar"] ∈
      (searchAirportsPlan [] 7 Option.none (some "airports in asia")).preds ∧
    evalPred (⟨2, "Delhi", Option.none, some "India", Option.none,
        Option.none, Option.none, Option.none, 0⟩ : Row)
      (Pred.regionLike ["india", "china", "japan", "singapore", "uae", "indonesia",
        "korea", "thailand", "qatar"]) = true := by
  have hd : detectRegion (some (procText (some "airports in asia"))) =
      some ["india", "china", "japan", "singapore", "uae", "indonesia",
        "korea", "thailand", "qatar"] := by decide
  have h := C3_region_filter_amended [] 7 Option.none (some "airports in asia")
    ["india", "china", "japan", "singapore", "uae", "indonesia",
      "korea", "thailand", "qatar"] hd
  refine ⟨hd, h.1, ?_⟩
  exact (h.2.1 (⟨2, "Delhi", Option.none, some "India", Option.none,
    Option.none, Option.none, Option.none, 0⟩ : Row)).mpr ⟨"india", by simp, by decide⟩

/-- C9: the emitted attribute clauses depend only on the five recognized
filter keys (all other keys are ignored), each of the five contributes a
predicate exactly when its looked-up value is truthy, and a filter map all
of whose recognized values are falsy yields exactly the plan of the empty
filter map. -/
theorem C9_falsy_filters (vec : List PyFloat) (k : Int) (query_text : Option String)
    (f g : Filters)
    (hagree : ∀ key ∈ ["country", "city", "style", "has_image", "has_logo"],
      fget f key = fget g key) :
    searchAirportsPlan vec k (some f) query_text =
      searchAirportsPlan vec k (some g) query_text ∧
    applyFiltersPreds (some f) =
      (if (fget f "country").truthy then [Pred.countryEq (fget f "country")] else []) ++
      (if (fget f "city").truthy then [Pred.cityEq (fget f "city")] else []) ++
      (if (fget f "style").truthy then [Pred.styleEq (fget f "style")] else []) ++
      (if (fget f "has_image").truthy then [Pred.hasImage] else []) ++
      (if (fget f "has_logo").truthy then [Pred.hasLogo] else []) ∧
    ((∀ key ∈ ["country", "city", "style", "has_image", "has_logo"],
        (fget f key).truthy = false) →
      searchAirportsPlan vec k (some f) query_text =
        searchAirportsPlan vec k (some []) query_text) := by
  have hc := hagree "country" (by simp)
  have hci := hagree "city" (by simp)
  have hs := hagree "style" (by simp)
  have hhi := hagree "has_image" (by simp)
  have hhl := hagree "has_logo" (by simp)
  have hfg : applyFiltersPreds (some f) = applyFiltersPreds (some g) := by
    rw [applyFiltersPreds_some, applyFiltersPreds_some, hc, hci, hs, hhi, hhl]
  refine ⟨?_, applyFiltersPreds_some f, ?_⟩
  · simp only [searchAirportsPlan, hfg]
  · intro hfalsy
    have h1 : applyFiltersPreds (some f) = [] := by
      rw [applyFiltersPreds_some, hfalsy "country" (by simp), hfalsy "city" (by simp),
        hfalsy "style" (by simp), hfalsy "has_image" (by simp),
        hfalsy "has_logo" (by simp)]
      simp
    have h2 : applyFiltersPreds (some ([] : Filters)) = [] := rfl
    simp only [searchAirportsPlan, h1, h2]

/-- C9 witness: an unrecognized key produces the same plan as its absence,
and the maps `{"has_image": False, "country": ""}` (all recognized values
falsy) produce exactly the plan of the empty filter map. -/
theorem C9_falsy_filters_witness :
    (∀ key ∈ ["country", "city", "style", "has_image", "has_logo"],
      fget [("foo", PyVal.str "bar"), ("country", PyVal.str "India")] key =
        fget [("country", PyVal.str "India")] key) ∧
    searchAirportsPlan [] 5 (some [("foo", PyVal.str "bar"), ("country", PyVal.str "India")])
        Option.none =
      searchAirportsPlan [] 5 (some [("country", PyVal.str "India")]) Option.none ∧
    (∀ key ∈ ["country", "city", "style", "has_image", "has_logo"],
      (fget [("has_image", PyVal.bool false), ("country", PyVal.str "")] key).truthy = false) ∧
    searchAirportsPlan [] 5
        (some [("has_image", PyVal.bool false), ("country", PyVal.str "")]) Option.none =
      searchAirportsPlan [] 5 (some []) Option.none := by
  refine ⟨by decide, ?_, by decide, ?_⟩
  · exact (C9_falsy_filters [] 5 Option.none
      [("foo", PyVal.str "bar"), ("country", PyVal.str "India")]
      [("country", PyVal.str "India")] (by decide)).1
  · exact (C9_falsy_filters [] 5 Option.none
      [("has_image", PyVal.bool false), ("country", PyVal.str "")]
      [("has_image", PyVal.bool false), ("country", PyVal.str "")]
      (by decide)).2.2 (by decide)

/-- C4 counterexample: at `wt = wi = 10⁻¹²` — both in [0,1], with a
strictly positive sum — the normalized weights sum to `1/500`, which is
not within floating-point epsilon (or any reasonable tolerance) of 1. -/
theorem C4_counterexample :
    (0 : ℚ) ≤ 1 / 10 ^ 12 ∧ (1 / 10 ^ 12 : ℚ) ≤ 1 ∧
    (0 : ℚ) < 1 / 10 ^ 12 + 1 / 10 ^ 12 ∧
    (normalizeWeights (1 / 10 ^ 12) (1 / 10 ^ 12)).1 +
      (normalizeWeights (1 / 10 ^ 12) (1 / 10 ^ 12)).2 = 1 / 500 ∧
    (1 : ℚ) - 1 / 500 > 1 / 2 ^ 52 := by
  have h1 : clamp01 (1 / 10 ^ 12 : ℚ) = 1 / 10 ^ 12 := by
    rw [clamp01, min_eq_right (by norm_num), max_eq_right (by norm_num)]
  refine ⟨by norm_num, by norm_num, by norm_num, ?_, by norm_num⟩
  simp only [normalizeWeights, h1]
  rw [max_eq_right (by norm_num [WEIGHT_EPS]), WEIGHT_EPS]
  norm_num

/-- C4 amended: for weights in [0,1] whose sum is at least the `1e-9`
denominator floor, the normalized weights sum to exactly 1 and are both
nonnegative (for a sum strictly between 0 and the floor, the normalized
sum is `(wt+wi)/1e-9 < 1` instead). -/
theorem C4_weights_amended (wt wi : ℚ) (h0t : 0 ≤ wt) (h1t : wt ≤ 1)
    (h0i : 0 ≤ wi) (h1i : wi ≤ 1) (hsum : WEIGHT_EPS ≤ wt + wi) :
    (normalizeWeights wt wi).1 + (normalizeWeights wt wi).2 = 1 ∧
    0 ≤ (normalizeWeights wt wi).1 ∧ 0 ≤ (normalizeWeights wt wi).2 := by
  have hct : clamp01 wt = wt := by rw [clamp01, min_eq_right h1t, max_eq_right h0t]
  have hci : clamp01 wi = wi := by rw [clamp01, min_eq_right h1i, max_eq_right h0i]
  have heps : (0 : ℚ) < WEIGHT_EPS := by norm_num [WEIGHT_EPS]
  have hpos : (0 : ℚ) < wt + wi := lt_of_lt_of_le heps hsum
  have hd : max (wt + wi) WEIGHT_EPS = wt + wi := max_eq_left hsum
  simp only [normalizeWeights, hct, hci, hd]
  refine ⟨?_, div_nonneg h0t (le_of_lt hpos), div_nonneg h0i (le_of_lt hpos)⟩
  rw [div_add_div_same, div_self (ne_of_gt hpos)]

/-- C4 amended witness: the pair (0.6, 0.4). -/
theorem C4_weights_amended_witness :
    ((0 : ℚ) ≤ 3 / 5 ∧ (3 / 5 : ℚ) ≤ 1 ∧ (0 : ℚ) ≤ 2 / 5 ∧ (2 / 5 : ℚ) ≤ 1 ∧
      WEIGHT_EPS ≤ 3 / 5 + 2 / 5) ∧
    ((normalizeWeights (3 / 5) (2 / 5)).1 + (normalizeWeights (3 / 5) (2 / 5)).2 = 1 ∧
      0 ≤ (normalizeWeights (3 / 5) (2 / 5)).1 ∧
      0 ≤ (normalizeWeights (3 / 5) (2 / 5)).2) :=
  ⟨⟨by norm_num, by norm_num, by norm_num, by norm_num, by norm_num [WEIGHT_EPS]⟩,
    C4_weights_amended (3 / 5) (2 / 5) (by norm_num) (by norm_num) (by norm_num)
      (by norm_num) (by norm_num [WEIGHT_EPS])⟩

/-- C8: a vector whose length differs from the configured dimension `D` is
rejected by `_validate_dim` with a 400; a hybrid request whose image
vector's shape differs from the text vector's is rejected with a 400
before any plan (hence any storage call) is produced; every rejection on
this pre-storage path carries status 400 (validation, not a storage 500);
and well-dimensioned vectors are never rejected by these checks. -/
theorem C8_dim_validation (D : Nat) (t_vec : List PyFloat)
    (i_vec : Option (List PyFloat)) (wt0 wi0 : ℚ) (k : Int)
    (filters : Option Filters) (query : String) :
    (∀ v : List PyFloat,
      (validateDim D v = Except.ok () ↔ v.length = D) ∧
      (v.length ≠ D → validateDim D v = Except.error ⟨400⟩)) ∧
    (∀ iv : List PyFloat, i_vec = some iv → iv.length ≠ t_vec.length →
      ∃ e : HTTPError,
        searchHybridPlan D t_vec i_vec wt0 wi0 k filters query = Except.error e ∧
        e.status = 400) ∧
    (∀ e : HTTPError,
      searchHybridPlan D t_vec i_vec wt0 wi0 k filters query = Except.error e →
      e.status = 400) ∧
    (t_vec.length = D → (∀ iv, i_vec = some iv → iv.length = D) →
      ∃ p : Plan,
        searchHybridPlan D t_vec i_vec wt0 wi0 k filters query = Except.ok p) := by
  refine ⟨?_, ?_, ?_, ?_⟩
  · intro v
    by_cases hv : v.length = D <;> simp [validateDim, hv]
  · intro iv hiv hne
    subst hiv
    by_cases ht : t_vec.length = D
    · by_cases hi : iv.length = D
      · exact absurd (by rw [hi, ht]) hne
      · exact ⟨⟨400⟩, by simp [searchHybridPlan, validateDim, ht, hi], rfl⟩
    · exact ⟨⟨400⟩, by simp [searchHybridPlan, validateDim, ht], rfl⟩
  · intro e he
    by_cases ht : t_vec.length = D
    · cases hiv : i_vec with
      | none => simp [searchHybridPlan, validateDim, ht, hiv] at he
      | some iv =>
        by_cases hi : iv.length = D
        · have hsh : iv.length = t_vec.length := by rw [hi, ht]
          simp [searchHybridPlan, validateDim, ht, hi, hiv, hsh] at he
        · simp [searchHybridPlan, validateDim, ht, hi, hiv] at he
          simp [← he]
    · simp [searchHybridPlan, validateDim, ht] at he
      simp [← he]
  · intro ht hiv
    cases hiv2 : i_vec with
    | none =>
      refine ⟨searchAirportsPlan t_vec k filters (some query), ?_⟩
      simp [searchHybridPlan, validateDim, ht, hiv2]
    | some iv =>
      have hi : iv.length = D := hiv iv hiv2
      have hsh : iv.length = t_vec.length := by rw [hi, ht]
      refine ⟨searchAirportsPlan
        (combineVec (normalizeWeights wt0 wi0).1 t_vec (normalizeWeights wt0 wi0).2 iv)
        k filters (some query), ?_⟩
      simp [searchHybridPlan, validateDim, ht, hi, hiv2, hsh]

/-- C8 witness: with `D = 2`, a one-component image vector against a
two-component text vector is rejected with a 400, and a well-dimensioned
text-only request is not rejected. -/
theorem C8_dim_validation_witness :
    ([PyFloat.finite 1] : List PyFloat).length ≠
      ([PyFloat.finite 1, PyFloat.finite 0] : List PyFloat).length ∧
    (∃ e : HTTPError,
      searchHybridPlan 2 [PyFloat.finite 1, PyFloat.finite 0] (some [PyFloat.finite 1])
          (1 / 2) (1 / 2) 10 Option.none "q" = Except.error e ∧ e.status = 400) ∧
    ([PyFloat.finite 1, PyFloat.finite 0] : List PyFloat).length = 2 ∧
    (∃ p : Plan,
      searchHybridPlan 2 [PyFloat.finite 1, PyFloat.finite 0] Option.none
          (1 / 2) (1 / 2) 10 Option.none "q" = Except.ok p) := by
  refine ⟨by decide, ?_, by decide, ?_⟩
  · exact (C8_dim_validation 2 [PyFloat.finite 1, PyFloat.finite 0]
      (some [PyFloat.finite 1]) (1 / 2) (1 / 2) 10 Option.none "q").2.1
      [PyFloat.finite 1] rfl (by decide)
  · exact (C8_dim_validation 2 [PyFloat.finite 1, PyFloat.finite 0]
      Option.none (1 / 2) (1 / 2) 10 Option.none "q").2.2.2 (by decide)
      (fun iv hiv => nomatch hiv)

/-- C10: serialization replaces every non-finite component by `0.0`,
preserves the vector's length, and renders the bracketed comma-separated
cleaned components, so the bound vector text denotes an all-finite vector
of the input's length. -/
theorem C10_vec_text (v : List PyFloat) :
    vecText v = "[" ++ String.intercalate "," ((cleanVec v).map floatStr) ++ "]" ∧
    (cleanVec v).length = v.length ∧
    (∀ x ∈ cleanVec v, x.isfinite = true) ∧
    cleanComponent PyFloat.nan = PyFloat.finite 0 ∧
    cleanComponent PyFloat.inf = PyFloat.finite 0 ∧
    cleanComponent PyFloat.ninf = PyFloat.finite 0 ∧
    (∀ q : ℚ, cleanComponent (PyFloat.finite q) = PyFloat.finite q) := by
  refine ⟨rfl, by simp [cleanVec], ?_, rfl, rfl, rfl, fun q => rfl⟩
  intro x hx
  simp only [cleanVec, List.mem_map] at hx
  obtain ⟨y, _, hy⟩ := hx
  cases y with
  | finite q => rw [← hy]; rfl
  | nan => rw [← hy]; rfl
  | inf => rw [← hy]; rfl
  | ninf => rw [← hy]; rfl

/-- C10 witness: a vector holding NaN and +inf serializes via a cleaned
all-finite vector of the same length. -/
theorem C10_vec_text_witness :
    (cleanVec [PyFloat.nan, PyFloat.inf]).length = 2 ∧
    ∀ x ∈ cleanVec [PyFloat.nan, PyFloat.inf], x.isfinite = true := by
  have h := C10_vec_text [PyFloat.nan, PyFloat.inf]
  exact ⟨by simpa using h.2.1, h.2.2.1⟩

end SkyVision
